import Mathlib

/-!
Verification development for the naksu command execution and response-caching layer
(package vboxmanage, concatenated into src/src/naksu/host/host.go, together with an
older copy of the same package in src/unnamed/part_001).

The Go code is embedded shallowly:
* the external process runner (mebroutines.RunAndGetOutput / mebroutines.RunVBoxManage)
  is modelled by a scripted queue of responses together with a trace of the argument
  vectors that were handed to it;
* the in-memory response cache (paulusrobin go-memory-cache, an external collaborator)
  is modelled as a list of entries with absolute expiry instants, get-or-miss and
  set-with-ttl, following section 4.3 of the specification;
* Go regular expressions that the code applies to CLI output are implemented as
  executable scanners with the RE2 leftmost-match semantics of the concrete patterns
  appearing in the source;
* errors are carried as Option String (none = nil error), and functions that return a
  Go (value, error) pair return a Lean pair of the value and an Option String;
* logging is not modelled, it has no effect on any data flow.
-/

namespace Naksu

/-- Word character of the Go regexp class w, that is 0-9A-Za-z underscore. -/
def isWordChar (c : Char) : Bool :=
  c.isAlphanum || c == '_'

/-- Whitespace of the Go regexp class s: tab, newline, form feed, carriage return, space. -/
def isSpaceChar (c : Char) : Bool :=
  c == ' ' || c == '\t' || c == '\n' || c == '\x0c' || c == '\r'

/-- Matches a literal list of characters at the head of the input; on success returns
the remaining input. -/
def dropPrefixChars : List Char → List Char → Option (List Char)
  | [], rest => some rest
  | _, [] => none
  | p :: ps, c :: cs => if p == c then dropPrefixChars ps cs else none

/-- Scanner for the Go pattern Value:\s*(\w+) of GetVMProperty (host.go line 301):
leftmost occurrence of the literal Value: followed by optional whitespace and at least
one word character; the capture is the maximal word-character run. -/
def findValueWordAux : List Char → Option (List Char)
  | [] => none
  | c :: rest =>
    match dropPrefixChars "Value:".toList (c :: rest) with
    | some afterColon =>
      let afterWs := afterColon.dropWhile isSpaceChar
      let word := afterWs.takeWhile isWordChar
      if word.isEmpty then findValueWordAux rest else some word
    | none => findValueWordAux rest

/-- First capture of the Go pattern Value:\s*(\w+) applied to a string, as used by
GetVMProperty; none when the pattern does not match. -/
def guestPropertyCapture (s : String) : Option String :=
  (findValueWordAux s.toList).map String.mk

/-- Scanner for the Go pattern Value: (.+) of the older GetBoxProperty
(part_001 line 113): leftmost occurrence of the literal Value: followed by one space,
capturing the non-empty remainder of the line. -/
def findValueLineAux : List Char → Option (List Char)
  | [] => none
  | c :: rest =>
    match dropPrefixChars "Value: ".toList (c :: rest) with
    | some after =>
      let line := after.takeWhile (fun ch => ch != '\n')
      if line.isEmpty then findValueLineAux rest else some line
    | none => findValueLineAux rest

/-- First capture of the Go pattern Value: (.+) applied to a string, as used by the
older GetBoxProperty; none when the pattern does not match. -/
def boxPropertyCapture (s : String) : Option String :=
  (findValueLineAux s.toList).map String.mk

/-- Given the characters of a line following the literal VMState=", returns the capture
of (.+)" under greedy matching: everything before the last double quote of the line,
provided that is non-empty. -/
def vmStateLineCapture (line : List Char) : Option (List Char) :=
  match line.reverse.dropWhile (fun ch => ch != '"') with
  | [] => none
  | _ :: tailRev =>
    let cap := tailRev.reverse
    if cap.isEmpty then none else some cap

/-- Scanner for the Go pattern VMState="(.+)" of getVMStateFromOutput
(host.go line 322): leftmost occurrence of the literal VMState=" whose line contains a
later closing quote with at least one character in between. -/
def findVMStateAux : List Char → Option (List Char)
  | [] => none
  | c :: rest =>
    match dropPrefixChars "VMState=\"".toList (c :: rest) with
    | some after =>
      match vmStateLineCapture (after.takeWhile (fun ch => ch != '\n')) with
      | some cap => some cap
      | none => findVMStateAux rest
    | none => findVMStateAux rest

/-- Result of one invocation of the external process runner: combined output text and
an optional failure (none = the process succeeded). -/
structure RunResult where
  output : String
  err : Option String
deriving Repr, DecidableEq

/-- State of the external process boundary: a scripted queue of pending responses and
the trace of argument vectors passed to the runner so far. Models the
mebroutines.RunAndGetOutput boundary of section 6 of the specification. -/
structure Exec where
  pending : List RunResult
  trace : List (List String)
deriving Repr, DecidableEq

/-- Invoke the external process runner: record the argument vector in the trace and
consume the next scripted response (an exhausted script answers with a failure). -/
def runAndGetOutput (args : List String) (w : Exec) : RunResult × Exec :=
  match w.pending with
  | [] => (⟨"", some "exec: no scripted response"⟩, ⟨[], w.trace ++ [args]⟩)
  | r :: rest => (r, ⟨rest, w.trace ++ [args]⟩)

/-- Path of the hypervisor CLI executable. The platform-specific resolution
(getVBoxManagePath) is in a source file not under src; no claim depends on its value. -/
def getVBoxManagePath : String :=
  "vboxmanage"

/-- Join a list of strings with single spaces, as Go strings.Join(runArgs, " "). -/
def joinSpace : List String → String
  | [] => ""
  | [s] => s
  | s :: rest => s ++ " " ++ joinSpace rest

/-- Fixed diagnostic substring signalling that the VM is not registered
(host.go line 103). -/
def vBoxManageOutputNoVMInstalled : String :=
  "Could not find a registered machine named"

/-- Tests whether the first list is a prefix of the second. -/
def prefixCharsOf : List Char → List Char → Bool
  | [], _ => true
  | _, [] => false
  | a :: as, b :: bs => a == b && prefixCharsOf as bs

/-- Tests whether sub occurs contiguously inside the second list. -/
def infixCharsOf (sub : List Char) : List Char → Bool
  | [] => sub.isEmpty
  | c :: rest => prefixCharsOf sub (c :: rest) || infixCharsOf sub rest

/-- Go strings.Contains: sub occurs as a contiguous substring of s. -/
def strContains (s sub : String) : Bool :=
  infixCharsOf sub.toList s.toList

/-- runVBoxManage (host.go lines 153-184): invoke the CLI once; on failure consult the
duplicate-disk remediator, modelled by the parameter fixer standing for
detectAndFixDuplicateHardDiskProblem, whose source file is not under src and which the
caller observes only through its (fixed, error) result. When the remediator did not fix
and reported an error, return a wrapped form of the original error; when it fixed,
re-run the original command once and return that result. -/
def runVBoxManage (fixer : String → Bool × Option String) (args : List String)
    (w : Exec) : (String × Option String) × Exec :=
  let runArgs := getVBoxManagePath :: args
  match runAndGetOutput runArgs w with
  | (res, w1) =>
    match res.err with
    | none => ((res.output, none), w1)
    | some e =>
      let command := joinSpace runArgs
      let fr := fixer res.output
      if !fr.1 && fr.2.isSome then
        (("", some ("failed to execute " ++ command ++ ": " ++ e)), w1)
      else if fr.1 then
        match runAndGetOutput runArgs w1 with
        | (res2, w2) => ((res2.output, res2.err), w2)
      else
        ((res.output, some e), w1)

/-- runCommand (host.go lines 124-140) invokes runVBoxManage under the command
serializer. The serializer wait loop is interleaving-sensitive and is modelled
separately by the transition system SerStep below; in this sequential embedding
runCommand forwards to runVBoxManage. The logOutput flag only controls logging. -/
def runCommand (fixer : String → Bool × Option String) (args : List String)
    (w : Exec) : (String × Option String) × Exec :=
  runVBoxManage fixer args w

/-- RunCommand (host.go line 116). -/
def RunCommand (fixer : String → Bool × Option String) (args : List String)
    (w : Exec) : (String × Option String) × Exec :=
  runCommand fixer args w

/-- RunCommandWithoutLogging (host.go line 120). -/
def RunCommandWithoutLogging (fixer : String → Bool × Option String)
    (args : List String) (w : Exec) : (String × Option String) × Exec :=
  runCommand fixer args w

/-- One entry of the response cache: key, value and absolute expiry instant. -/
structure CacheEntry where
  key : String
  value : String
  expiresAt : Nat
deriving Repr, DecidableEq

/-- Cache lookup at instant now: the value of an entry for the key that has not yet
expired, none on miss. Models Get of the memory cache collaborator, whose error result
on a missing or expired key the callers treat as a miss (section 4.3). -/
def cacheGet (entries : List CacheEntry) (now : Nat) (key : String) : Option String :=
  match entries.find? (fun e => e.key == key && decide (now < e.expiresAt)) with
  | some e => some e.value
  | none => none

/-- Cache update: replace any entry of the key, expiring ttl after now. -/
def cacheSet (entries : List CacheEntry) (now : Nat) (key value : String)
    (ttl : Nat) : List CacheEntry :=
  ⟨key, value, now + ttl⟩ :: entries.filter (fun e => e.key != key)

/-- Modelled from the spec: the package naksu/constants is not under src. Section 4.3
fixes only that there are two TTL classes, a longer one for slowly-changing facts and a
shorter one for the VM state; the concrete durations matter to no claim. -/
def VBoxManageCacheTimeout : Nat :=
  60

/-- Modelled from the spec: the shorter TTL class, used for the VM state entry. -/
def VBoxRunningCacheTimeout : Nat :=
  5

/-- Module state threaded through the query facade: the response cache, the current
instant, and the external process boundary. -/
structure St where
  cache : List CacheEntry
  now : Nat
  exec : Exec
deriving Repr, DecidableEq

/-- getVMInfo (host.go lines 219-240): serve the raw showvminfo output from the cache
under the shared key showvminfo, else invoke the CLI (empty output on failure) and
cache the result with the long TTL. -/
def getVMInfo (fixer : String → Bool × Option String) (vmName : String)
    (st : St) : String × St :=
  match cacheGet st.cache st.now "showvminfo" with
  | some v => (v, st)
  | none =>
    match runCommand fixer ["showvminfo", "--machinereadable", vmName] st.exec with
    | ((out, errRun), ex) =>
      let rawVMInfo := if errRun.isSome then "" else out
      let cache := cacheSet st.cache st.now "showvminfo" rawVMInfo VBoxManageCacheTimeout
      (rawVMInfo, { st with cache := cache, exec := ex })

/-- GetVMInfoByRegexp (host.go lines 203-217): apply a caller-supplied pattern to the
cached showvminfo output and return the first capture group, or the empty string when
the pattern does not match or has no capture. The compiled pattern is modelled by the
extractor function, standing for FindStringSubmatch with its first capture group. -/
def GetVMInfoByRegexp (fixer : String → Bool × Option String)
    (extractor : String → Option String) (vmName : String) (st : St) : String × St :=
  match getVMInfo fixer vmName st with
  | (raw, st1) =>
    match extractor raw with
    | some capture => (capture, st1)
    | none => ("", st1)

/-- GetVMProperty (host.go lines 290-319): serve the guest property from the cache
under the property name, else invoke guestproperty get (treating an invocation failure
as empty output), extract the value with the pattern Value:\s*(\w+), and cache the
extracted value, possibly empty, with the long TTL. -/
def GetVMProperty (fixer : String → Bool × Option String) (vmName property : String)
    (st : St) : String × St :=
  match cacheGet st.cache st.now property with
  | some v => (v, st)
  | none =>
    match runCommand fixer ["guestproperty", "get", vmName, property] st.exec with
    | ((out, errRun), ex) =>
      let output := if errRun.isSome then "" else out
      let propertyValue := (guestPropertyCapture output).getD ""
      let cache := cacheSet st.cache st.now property propertyValue VBoxManageCacheTimeout
      (propertyValue, { st with cache := cache, exec := ex })

/-- getVMStateFromOutput (host.go lines 321-330): first capture of VMState="(.+)",
empty string when the pattern does not match. -/
def getVMStateFromOutput (output : String) : String :=
  ((findVMStateAux output.toList).map String.mk).getD ""

/-- getVMState (host.go lines 332-363): serve the VM state from the cache under the
key vmstate; on a miss invoke showvminfo, report the not-installed diagnostic as the
empty state with nil error, propagate other invocation failures, fail hard when no
VMState field can be extracted, and cache a successfully extracted state with the
short TTL. -/
def getVMState (fixer : String → Bool × Option String) (vmName : String)
    (st : St) : (String × Option String) × St :=
  match cacheGet st.cache st.now "vmstate" with
  | some v => ((v, none), st)
  | none =>
    match runCommand fixer ["showvminfo", "--machinereadable", vmName] st.exec with
    | ((rawVMInfo, errRun), ex) =>
      let st1 : St := { st with exec := ex }
      if strContains rawVMInfo vBoxManageOutputNoVMInstalled then
        (("", none), st1)
      else if errRun.isSome then
        (("", errRun), st1)
      else
        let vmState := getVMStateFromOutput rawVMInfo
        if vmState == "" then
          (("", some "could not find vm state from the vm info"), st1)
        else
          ((vmState, none),
            { st1 with cache := cacheSet st.cache st.now "vmstate" vmState VBoxRunningCacheTimeout })

/-- IsVMRunning (host.go lines 366-379): true exactly when the state string is
running; a state lookup error propagates with result false. -/
def IsVMRunning (fixer : String → Bool × Option String) (vmName : String)
    (st : St) : (Bool × Option String) × St :=
  match getVMState fixer vmName st with
  | ((vmState, errS), st1) =>
    match errS with
    | some e => ((false, some e), st1)
    | none => ((vmState == "running", none), st1)

/-- IsVMInstalled (host.go lines 382-397): invoke showvminfo; a failing invocation
whose output carries the not-installed diagnostic means not installed with nil error,
any other failure is returned verbatim, and a successful invocation means installed. -/
def IsVMInstalled (fixer : String → Bool × Option String) (vmName : String)
    (st : St) : (Bool × Option String) × St :=
  match runCommand fixer ["showvminfo", "--machinereadable", vmName] st.exec with
  | ((raw, errRun), ex) =>
    let st1 : St := { st with exec := ex }
    match errRun with
    | some e =>
      if strContains raw vBoxManageOutputNoVMInstalled then ((false, none), st1)
      else ((false, some e), st1)
    | none => ((true, none), st1)

/-- Scanner for the anchored Go pattern of getVBoxManageVersionSemanticPart
(host.go line 249): a leading digits.digits.digits triple. -/
def leadingSemverTriple (l : List Char) : Option (List Char) :=
  let d1 := l.takeWhile Char.isDigit
  if d1.isEmpty then none else
  match l.drop d1.length with
  | '.' :: r1 =>
    let d2 := r1.takeWhile Char.isDigit
    if d2.isEmpty then none else
    match r1.drop d2.length with
    | '.' :: r2 =>
      let d3 := r2.takeWhile Char.isDigit
      if d3.isEmpty then none else some (d1 ++ '.' :: d2 ++ '.' :: d3)
    | _ => none
  | _ => none

/-- Leading major.minor.patch capture of the version output, none when the output does
not begin with a numeric triple. -/
def versionCapture (s : String) : Option String :=
  (leadingSemverTriple s.toList).map String.mk

/-- Semantic version value, the target of blang semver Make in the source. -/
structure SemVer where
  major : Nat
  minor : Nat
  patch : Nat
deriving Repr, DecidableEq

/-- Canonical rendering of a semantic version, as Version.String() of blang semver
restricted to core versions. -/
def semverString (v : SemVer) : String :=
  toString v.major ++ "." ++ toString v.minor ++ "." ++ toString v.patch

/-- Numeric value of a list of decimal digits. -/
def natOfDigits (l : List Char) : Nat :=
  l.foldl (fun n c => 10 * n + (c.toNat - 48)) 0

/-- One numeric component of a semantic version: non-empty, digits only, and no
leading zero, as blang semver demands. -/
def parseVersionNum (l : List Char) : Option Nat :=
  if l.isEmpty then none
  else if decide (1 < l.length) && l.headD ' ' == '0' then none
  else if l.all Char.isDigit then some (natOfDigits l) else none

/-- Splits a character list at every dot, keeping empty components. -/
def splitOnDotChars : List Char → List (List Char)
  | [] => [[]]
  | c :: rest =>
    let r := splitOnDotChars rest
    if c == '.' then [] :: r
    else
      match r with
      | [] => [[c]]
      | h :: t => (c :: h) :: t

/-- blang semver Make restricted to core major.minor.patch versions, the only shape
reaching it in this code: exactly three dot-separated numeric components, each without
leading zeroes. Any other shape is a parse error. -/
def semverMake (s : String) : Option SemVer :=
  match splitOnDotChars s.toList with
  | [a, b, c] =>
    match parseVersionNum a, parseVersionNum b, parseVersionNum c with
    | some x, some y, some z => some ⟨x, y, z⟩
    | _, _, _ => none
  | _ => none

/-- getVBoxManageVersionSemanticPart (host.go lines 242-256): invoke the CLI with
--version and extract the leading numeric triple; a failing invocation or an output
without a leading triple is a hard error. -/
def getVBoxManageVersionSemanticPart (fixer : String → Bool × Option String)
    (st : St) : Except String String × St :=
  match runCommand fixer ["--version"] st.exec with
  | ((output, errRun), ex) =>
    let st1 : St := { st with exec := ex }
    match errRun with
    | some e => (.error ("failed to get vboxmanage version: " ++ e), st1)
    | none =>
      match versionCapture output with
      | some m => (.ok m, st1)
      | none =>
        (.error ("could not find semantic version string from vboxmanage version " ++ output), st1)

/-- GetVBoxManageVersion (host.go lines 258-288): serve the canonical version from the
cache under the key vboxmanageversion, else extract the leading triple from the
--version output, parse it strictly as a semantic version (a parse failure is a hard
error, never a defaulted version), and cache the canonical rendering with the long
TTL. -/
def GetVBoxManageVersion (fixer : String → Bool × Option String)
    (st : St) : Except String SemVer × St :=
  match cacheGet st.cache st.now "vboxmanageversion" with
  | some cached =>
    match semverMake cached with
    | some v => (.ok v, st)
    | none => (.error ("getting semantic version object from " ++ cached ++ " caused error"), st)
  | none =>
    match getVBoxManageVersionSemanticPart fixer st with
    | (part, st1) =>
      match part with
      | .error e => (.error e, st1)
      | .ok vs =>
        match semverMake vs with
        | none => (.error ("vboxmanage version " ++ vs ++ " is not a semantic version number"), st1)
        | some v =>
          (.ok v,
            { st1 with cache := cacheSet st1.cache st1.now "vboxmanageversion" (semverString v) VBoxManageCacheTimeout })

/-- CallRunVBoxManage of the older copy (part_001 lines 20-36): invoke the runner
directly, with no remediation; the serializer loop is the same wait loop modelled by
the transition system below. The older mebroutines.RunVBoxManage boundary is the same
scripted runner. -/
def CallRunVBoxManage (args : List String) (w : Exec) : (String × Option String) × Exec :=
  match runAndGetOutput args w with
  | (res, w1) => ((res.output, res.err), w1)

/-- GetBoxProperty of the older copy (part_001 lines 100-131): like GetVMProperty but
extracting with the pattern Value: (.+), so the capture is the remainder of the
line. -/
def GetBoxProperty (boxName property : String) (st : St) : String × St :=
  match cacheGet st.cache st.now property with
  | some v => (v, st)
  | none =>
    match CallRunVBoxManage ["guestproperty", "get", boxName, property] st.exec with
    | ((out, errRun), ex) =>
      let output := if errRun.isSome then "" else out
      let propertyValue := (boxPropertyCapture output).getD ""
      let cache := cacheSet st.cache st.now property propertyValue VBoxManageCacheTimeout
      (propertyValue, { st with cache := cache, exec := ex })

/-- Program counter of one caller of the serializer wait loop of runCommand
(host.go lines 124-140) and CallRunVBoxManage (part_001 lines 20-36): testing the
shared flag inside the loop, about to write the flag after leaving the loop, running
the external process, and finished. The write of the flag is a separate step from the
test because the Go code has no atomic primitive there. -/
inductive SerPC
  | testing
  | acquiring
  | running
  | done
deriving Repr, DecidableEq

/-- Local state of one caller: its program counter and its loop counter tryCounter. -/
structure SerThread where
  pc : SerPC
  ctr : Nat
deriving Repr, DecidableEq

/-- Shared and local state of two concurrent callers: the shared flag
vBoxManageStarted (0 = idle, 1 stands for any non-zero start timestamp) and the two
threads. -/
structure SerState where
  flag : Nat
  tleft : SerThread
  tright : SerThread
deriving Repr, DecidableEq

/-- One step of a single caller against the shared flag, following the statements of
runCommand: a loop iteration sleeps and increments while the flag is held and the
counter is below 240; the loop exits once the flag reads zero or the counter has
reached 240; the exited caller then writes the flag (a non-zero timestamp, modelled as
1) and invokes the process; completion clears the flag unconditionally. -/
inductive SerThreadStep : Nat → SerThread → Nat → SerThread → Prop
  | wait (flag c) : flag ≠ 0 → c < 240 →
      SerThreadStep flag ⟨.testing, c⟩ flag ⟨.testing, c + 1⟩
  | exitLoop (flag c) : flag = 0 ∨ 240 ≤ c →
      SerThreadStep flag ⟨.testing, c⟩ flag ⟨.acquiring, c⟩
  | acquire (flag c) : SerThreadStep flag ⟨.acquiring, c⟩ 1 ⟨.running, c⟩
  | release (flag c) : SerThreadStep flag ⟨.running, c⟩ 0 ⟨.done, c⟩

/-- Interleaving of the two callers: at each step one of them moves. -/
inductive SerStep : SerState → SerState → Prop
  | stepLeft {f t r f2 t2} : SerThreadStep f t f2 t2 →
      SerStep ⟨f, t, r⟩ ⟨f2, t2, r⟩
  | stepRight {f l t f2 t2} : SerThreadStep f t f2 t2 →
      SerStep ⟨f, l, t⟩ ⟨f2, l, t2⟩

/-- Reachability under the interleaving semantics. -/
inductive SerReach : SerState → SerState → Prop
  | refl (s) : SerReach s s
  | tail {s t u} : SerReach s t → SerStep t u → SerReach s u

/-- Both callers start outside any invocation, with the flag idle and fresh loop
counters. -/
def serInit : SerState :=
  ⟨0, ⟨.testing, 0⟩, ⟨.testing, 0⟩⟩

/-- A string whose character list is empty is the empty string. -/
theorem string_of_toList_nil {r : String} (h : r.toList = []) : r = "" := by
  cases r with
  | mk l =>
    have hl : l = [] := h
    rw [hl]

/-- C1: when the first invocation by runVBoxManage fails and the duplicate-disk
remediator reports fixed true, the original command is re-invoked exactly once (two
trace entries, the retry consumed from the script) and the result of the single retry,
in particular a second failure, is surfaced verbatim with no further remediation
attempt; when the remediator reports fixed false, no retry occurs (one trace entry,
the second scripted response untouched). -/
theorem claim_C1 (fixer : String → Bool × Option String) (args : List String)
    (r1 r2 : RunResult) (tr : List (List String)) (e1 : String)
    (herr : r1.err = some e1) :
    ((fixer r1.output).1 = true →
      runVBoxManage fixer args ⟨[r1, r2], tr⟩ =
        ((r2.output, r2.err),
          ⟨[], tr ++ [getVBoxManagePath :: args] ++ [getVBoxManagePath :: args]⟩)) ∧
    ((fixer r1.output).1 = false →
      (runVBoxManage fixer args ⟨[r1, r2], tr⟩).2 =
        ⟨[r2], tr ++ [getVBoxManagePath :: args]⟩) := by
  constructor
  · intro hfix
    simp [runVBoxManage, runAndGetOutput, herr, hfix]
  · intro hfix
    rcases hfe : (fixer r1.output).2 with _ | fe <;>
      simp [runVBoxManage, runAndGetOutput, herr, hfix, hfe]

/-- Witness for C1 at a failing invocation, a remediator verdict fixed true, and a
failing retry. -/
theorem claim_C1_witness :
    runVBoxManage (fun _ => (true, none)) ["w"]
        ⟨[⟨"o1", some "e1"⟩, ⟨"o2", some "e2"⟩], []⟩ =
      (("o2", some "e2"), ⟨[], [["vboxmanage", "w"], ["vboxmanage", "w"]]⟩) := by
  have h := claim_C1 (fun _ => (true, none)) ["w"] ⟨"o1", some "e1"⟩ ⟨"o2", some "e2"⟩ [] "e1" rfl
  simpa using h.1 rfl

/-- C2 counterexample: a failing invocation whose remediation also fails (fixed false
with a non-nil error remerr) makes runVBoxManage return the wrapped original
invocation error, which is not the remediation error. -/
theorem claim_C2_cex :
    runVBoxManage (fun _ => (false, some "remerr")) ["a"]
        ⟨[⟨"dupdisk", some "origerr"⟩], []⟩ =
      (("", some "failed to execute vboxmanage a: origerr"),
        ⟨[], [["vboxmanage", "a"]]⟩) ∧
    ("failed to execute vboxmanage a: origerr" : String) ≠ "remerr" := by
  exact ⟨rfl, by decide⟩

/-- C2 amended: when a failed invocation is followed by a failing remediation (fixed
false with a non-nil error), runVBoxManage returns to its caller a wrapped form of the
original invocation error, of the shape failed to execute command: original error; the
remediation error itself is only logged, never returned. -/
theorem claim_C2_amended (fixer : String → Bool × Option String) (args : List String)
    (r1 : RunResult) (rest : List RunResult) (tr : List (List String)) (e1 fe : String)
    (herr : r1.err = some e1) (hfix : fixer r1.output = (false, some fe)) :
    runVBoxManage fixer args ⟨r1 :: rest, tr⟩ =
      (("", some ("failed to execute " ++ joinSpace (getVBoxManagePath :: args) ++ ": " ++ e1)),
        ⟨rest, tr ++ [getVBoxManagePath :: args]⟩) := by
  simp [runVBoxManage, runAndGetOutput, herr, hfix]

/-- Witness for the amended C2 at a concrete failing invocation and failing
remediation. -/
theorem claim_C2_amended_witness :
    runVBoxManage (fun _ => (false, some "remerr")) ["b"]
        ⟨[⟨"out", some "orig"⟩], []⟩ =
      (("", some ("failed to execute " ++ joinSpace (getVBoxManagePath :: ["b"]) ++ ": " ++ "orig")),
        ⟨[], [] ++ [getVBoxManagePath :: ["b"]]⟩) := by
  exact claim_C2_amended (fun _ => (false, some "remerr")) ["b"] ⟨"out", some "orig"⟩ [] [] "orig" "remerr" rfl rfl

/-- C3 counterexample: on a cache miss with guestproperty output Value: exam-mode, the
current GetVMProperty returns exam (its word-character pattern stops at the hyphen),
not exam-mode. -/
theorem claim_C3_cex :
    (GetVMProperty (fun _ => (false, none)) "vm" "mode"
        ⟨[], 0, ⟨[⟨"Value: exam-mode", none⟩], []⟩⟩).1 = "exam" ∧
    ("exam" : String) ≠ "exam-mode" := by
  exact ⟨rfl, by decide⟩

/-- C3 amended: for every VM name and property name, on a cache miss with
guestproperty output Value: exam-mode, the older GetBoxProperty (pattern capturing the
remainder of the line) returns exam-mode, while the current GetVMProperty (pattern
capturing word characters only) stops at the hyphen and returns exam. -/
theorem claim_C3_amended (fixer : String → Bool × Option String) (vmName property : String) :
    (GetVMProperty fixer vmName property
        ⟨[], 0, ⟨[⟨"Value: exam-mode", none⟩], []⟩⟩).1 = "exam" ∧
    (GetBoxProperty vmName property
        ⟨[], 0, ⟨[⟨"Value: exam-mode", none⟩], []⟩⟩).1 = "exam-mode" := by
  exact ⟨rfl, rfl⟩

/-- C4: on a cache miss, getVMState returns the empty string with nil error when the
showvminfo output contains the not-installed diagnostic; otherwise, when no VMState
field can be extracted from the output, it returns a non-nil error (whether the
invocation failed or merely produced output of an unexpected shape), never silently
treating the VM as not running. -/
theorem claim_C4 (fixer : String → Bool × Option String) (vmName : String) (st : St)
    (raw : String) (errRun : Option String) (ex : Exec)
    (hmiss : cacheGet st.cache st.now "vmstate" = none)
    (hrun : runCommand fixer ["showvminfo", "--machinereadable", vmName] st.exec
      = ((raw, errRun), ex)) :
    (strContains raw vBoxManageOutputNoVMInstalled = true →
      (getVMState fixer vmName st).1 = ("", none)) ∧
    (strContains raw vBoxManageOutputNoVMInstalled = false →
      getVMStateFromOutput raw = "" →
      ∃ e, (getVMState fixer vmName st).1 = ("", some e)) := by
  constructor
  · intro hdiag
    simp [getVMState, hmiss, hrun, hdiag]
  · intro hdiag hext
    cases errRun with
    | none =>
      exact ⟨"could not find vm state from the vm info",
        by simp [getVMState, hmiss, hrun, hdiag, hext]⟩
    | some er =>
      exact ⟨er, by simp [getVMState, hmiss, hrun, hdiag]⟩

/-- Witness for C4 on an output carrying the not-installed diagnostic. -/
theorem claim_C4_witness :
    (getVMState (fun _ => (false, none)) "vm"
        ⟨[], 0, ⟨[⟨"Could not find a registered machine named vm", some "boom"⟩], []⟩⟩).1
      = ("", none) := by
  exact (claim_C4 (fun _ => (false, none)) "vm"
    ⟨[], 0, ⟨[⟨"Could not find a registered machine named vm", some "boom"⟩], []⟩⟩
    "Could not find a registered machine named vm" (some "boom")
    ⟨[], [["vboxmanage", "showvminfo", "--machinereadable", "vm"]]⟩ rfl rfl).1 (by decide)

/-- C5 counterexample: a successful showvminfo invocation whose output nevertheless
contains the not-installed diagnostic makes IsVMInstalled return true with nil error,
not the false with nil error the claim demands for every output containing the
diagnostic. -/
theorem claim_C5_cex :
    (IsVMInstalled (fun _ => (false, none)) "vm"
        ⟨[], 0, ⟨[⟨"Could not find a registered machine named vm", none⟩], []⟩⟩).1
      = (true, none) ∧
    strContains "Could not find a registered machine named vm"
      vBoxManageOutputNoVMInstalled = true := by
  exact ⟨rfl, by decide⟩

/-- C5 amended: IsVMInstalled returns false with nil error when the invocation fails
and its output contains the not-installed diagnostic; returns true with nil error
whenever the invocation succeeds, regardless of the output text; and returns any other
invocation error verbatim with result false. -/
theorem claim_C5_amended (fixer : String → Bool × Option String) (vmName : String)
    (st : St) (raw : String) (errRun : Option String) (ex : Exec)
    (hrun : runCommand fixer ["showvminfo", "--machinereadable", vmName] st.exec
      = ((raw, errRun), ex)) :
    (errRun = none →
      IsVMInstalled fixer vmName st = ((true, none), ⟨st.cache, st.now, ex⟩)) ∧
    (∀ e, errRun = some e → strContains raw vBoxManageOutputNoVMInstalled = true →
      IsVMInstalled fixer vmName st = ((false, none), ⟨st.cache, st.now, ex⟩)) ∧
    (∀ e, errRun = some e → strContains raw vBoxManageOutputNoVMInstalled = false →
      IsVMInstalled fixer vmName st = ((false, some e), ⟨st.cache, st.now, ex⟩)) := by
  refine ⟨?_, ?_, ?_⟩
  · intro hnone
    subst hnone
    simp [IsVMInstalled, hrun]
  · intro e he hdiag
    subst he
    simp [IsVMInstalled, hrun, hdiag]
  · intro e he hdiag
    subst he
    simp [IsVMInstalled, hrun, hdiag]

/-- Witness for the amended C5 on a failing invocation carrying the diagnostic. -/
theorem claim_C5_amended_witness :
    IsVMInstalled (fun _ => (false, none)) "vm"
        ⟨[], 0, ⟨[⟨"Could not find a registered machine named vm", some "exit status 1"⟩], []⟩⟩
      = ((false, none),
          ⟨[], 0, ⟨[], [["vboxmanage", "showvminfo", "--machinereadable", "vm"]]⟩⟩) := by
  exact (claim_C5_amended (fun _ => (false, none)) "vm"
    ⟨[], 0, ⟨[⟨"Could not find a registered machine named vm", some "exit status 1"⟩], []⟩⟩
    "Could not find a registered machine named vm" (some "exit status 1")
    ⟨[], [["vboxmanage", "showvminfo", "--machinereadable", "vm"]]⟩ rfl).2.1
    "exit status 1" rfl (by decide)

/-- C6: on a cache miss with a successful version invocation, GetVBoxManageVersion
returns a hard error (never a defaulted version) whenever the output has no leading
numeric major.minor.patch triple, and likewise whenever the extracted triple fails
strict semantic-version parsing; on the output 6.1.26 followed by the Oracle banner it
returns version 6.1.26. -/
theorem claim_C6 (fixer : String → Bool × Option String) (st : St) (output : String)
    (ex : Exec)
    (hmiss : cacheGet st.cache st.now "vboxmanageversion" = none)
    (hrun : runCommand fixer ["--version"] st.exec = ((output, none), ex)) :
    (versionCapture output = none →
      ∃ e, (GetVBoxManageVersion fixer st).1 = .error e) ∧
    (∀ vs, versionCapture output = some vs → semverMake vs = none →
      ∃ e, (GetVBoxManageVersion fixer st).1 = .error e) ∧
    (output = "6.1.26\nOracle VM VirtualBox Command Line Management Interface Version 6.1.26" →
      (GetVBoxManageVersion fixer st).1 = .ok ⟨6, 1, 26⟩) := by
  refine ⟨?_, ?_, ?_⟩
  · intro hcap
    exact ⟨"could not find semantic version string from vboxmanage version " ++ output,
      by simp [GetVBoxManageVersion, getVBoxManageVersionSemanticPart, hmiss, hrun, hcap]⟩
  · intro vs hcap hsem
    exact ⟨"vboxmanage version " ++ vs ++ " is not a semantic version number",
      by simp [GetVBoxManageVersion, getVBoxManageVersionSemanticPart, hmiss, hrun, hcap, hsem]⟩
  · intro hout
    subst hout
    have hcap : versionCapture
        "6.1.26\nOracle VM VirtualBox Command Line Management Interface Version 6.1.26"
        = some "6.1.26" := rfl
    have hsem : semverMake "6.1.26" = some ⟨6, 1, 26⟩ := rfl
    simp [GetVBoxManageVersion, getVBoxManageVersionSemanticPart, hmiss, hrun, hcap, hsem]

/-- Witness for C6 on the concrete version banner from the specification. -/
theorem claim_C6_witness :
    (GetVBoxManageVersion (fun _ => (false, none))
        ⟨[], 0, ⟨[⟨"6.1.26\nOracle VM VirtualBox Command Line Management Interface Version 6.1.26", none⟩], []⟩⟩).1
      = .ok ⟨6, 1, 26⟩ := by
  exact (claim_C6 (fun _ => (false, none))
    ⟨[], 0, ⟨[⟨"6.1.26\nOracle VM VirtualBox Command Line Management Interface Version 6.1.26", none⟩], []⟩⟩
    "6.1.26\nOracle VM VirtualBox Command Line Management Interface Version 6.1.26"
    ⟨[], [["vboxmanage", "--version"]]⟩ rfl rfl).2.2 rfl

/-- C7: on a cache miss whose guestproperty invocation fails, GetVMProperty returns
the empty string (its signature carries no error), writes the empty value into the
cache under the property name with the long TTL, and any later call before that entry
expires is served from the cache without invoking the CLI (the state, including the
runner trace, is returned unchanged). -/
theorem claim_C7 (fixer : String → Bool × Option String) (vmName property : String)
    (st : St) (out e : String) (ex : Exec)
    (hmiss : cacheGet st.cache st.now property = none)
    (hrun : runCommand fixer ["guestproperty", "get", vmName, property] st.exec
      = ((out, some e), ex)) :
    GetVMProperty fixer vmName property st =
      ("", ⟨cacheSet st.cache st.now property "" VBoxManageCacheTimeout, st.now, ex⟩) ∧
    (∀ t (ex2 : Exec), t < st.now + VBoxManageCacheTimeout →
      GetVMProperty fixer vmName property
          ⟨cacheSet st.cache st.now property "" VBoxManageCacheTimeout, t, ex2⟩ =
        ("", ⟨cacheSet st.cache st.now property "" VBoxManageCacheTimeout, t, ex2⟩)) := by
  constructor
  · simp [GetVMProperty, hmiss, hrun, guestPropertyCapture, findValueWordAux]
  · intro t ex2 ht
    have hfind : cacheGet (cacheSet st.cache st.now property "" VBoxManageCacheTimeout) t property
        = some "" := by
      simp [cacheGet, cacheSet, List.find?, ht]
    simp [GetVMProperty, hfind]

/-- Witness for C7 on a concrete failing guestproperty invocation. -/
theorem claim_C7_witness :
    GetVMProperty (fun _ => (false, none)) "vm" "mode"
        ⟨[], 5, ⟨[⟨"junk", some "boom"⟩], []⟩⟩ =
      ("", ⟨cacheSet [] 5 "mode" "" VBoxManageCacheTimeout, 5,
        ⟨[], [["vboxmanage", "guestproperty", "get", "vm", "mode"]]⟩⟩) := by
  exact (claim_C7 (fun _ => (false, none)) "vm" "mode"
    ⟨[], 5, ⟨[⟨"junk", some "boom"⟩], []⟩⟩ "junk" "boom"
    ⟨[], [["vboxmanage", "guestproperty", "get", "vm", "mode"]]⟩ rfl rfl).1

/-- C8 counterexample: under the interleaved semantics of the wait loop, both callers
reach the running section simultaneously with loop counters still zero, far below the
240-attempt ceiling: both test the idle flag before either writes it, because the test
and the write are separate steps in the code. -/
theorem claim_C8_cex :
    SerReach serInit ⟨1, ⟨.running, 0⟩, ⟨.running, 0⟩⟩ ∧
    (⟨1, ⟨.running, 0⟩, ⟨.running, 0⟩⟩ : SerState).tleft.pc = .running ∧
    (⟨1, ⟨.running, 0⟩, ⟨.running, 0⟩⟩ : SerState).tright.pc = .running ∧
    (⟨1, ⟨.running, 0⟩, ⟨.running, 0⟩⟩ : SerState).tleft.ctr < 240 ∧
    (⟨1, ⟨.running, 0⟩, ⟨.running, 0⟩⟩ : SerState).tright.ctr < 240 := by
  refine ⟨?_, rfl, rfl, by decide, by decide⟩
  have h1 : SerStep serInit ⟨0, ⟨.acquiring, 0⟩, ⟨.testing, 0⟩⟩ :=
    SerStep.stepLeft (SerThreadStep.exitLoop 0 0 (Or.inl rfl))
  have h2 : SerStep ⟨0, ⟨.acquiring, 0⟩, ⟨.testing, 0⟩⟩ ⟨0, ⟨.acquiring, 0⟩, ⟨.acquiring, 0⟩⟩ :=
    SerStep.stepRight (SerThreadStep.exitLoop 0 0 (Or.inl rfl))
  have h3 : SerStep ⟨0, ⟨.acquiring, 0⟩, ⟨.acquiring, 0⟩⟩ ⟨1, ⟨.running, 0⟩, ⟨.acquiring, 0⟩⟩ :=
    SerStep.stepLeft (SerThreadStep.acquire 0 0)
  have h4 : SerStep ⟨1, ⟨.running, 0⟩, ⟨.acquiring, 0⟩⟩ ⟨1, ⟨.running, 0⟩, ⟨.running, 0⟩⟩ :=
    SerStep.stepRight (SerThreadStep.acquire 1 0)
  exact SerReach.tail (SerReach.tail (SerReach.tail (SerReach.tail (SerReach.refl _) h1) h2) h3) h4

/-- C8 amended: each caller polls the shared flag (sleeping 500 ms per attempt) at
most 240 times before invoking the process, in every reachable interleaving; but
because the flag test and the flag write are separate non-atomic steps, two callers
that both observe the flag clear can hold the serializer slot simultaneously even
before the ceiling, so exclusivity is best effort, not guaranteed. -/
theorem claim_C8_amended (s : SerState) (h : SerReach serInit s) :
    s.tleft.ctr ≤ 240 ∧ s.tright.ctr ≤ 240 := by
  induction h with
  | refl => exact ⟨by decide, by decide⟩
  | tail hr hs ih =>
    cases hs with
    | stepLeft hts =>
      cases hts with
      | wait c h1 h2 => exact ⟨h2, ih.2⟩
      | exitLoop c h1 => exact ih
      | acquire c => exact ih
      | release c => exact ih
    | stepRight hts =>
      cases hts with
      | wait c h1 h2 => exact ⟨ih.1, h2⟩
      | exitLoop c h1 => exact ih
      | acquire c => exact ih
      | release c => exact ih

/-- Witness for the amended C8 at the initial state. -/
theorem claim_C8_amended_witness :
    serInit.tleft.ctr ≤ 240 ∧ serInit.tright.ctr ≤ 240 :=
  claim_C8_amended serInit (SerReach.refl serInit)

/-- C9: when the showvminfo invocation fails on a cache miss, getVMInfo stores the
empty string under the shared showvminfo key; until that entry expires, every
GetVMInfoByRegexp call, for every pattern (whose captures are substrings of the
scanned text, as regular-expression captures are), returns the empty string with the
state, including the runner trace, unchanged, so the hypervisor CLI is not invoked. -/
theorem claim_C9 (fixer : String → Bool × Option String)
    (extractor : String → Option String) (vmName : String) (st : St)
    (out e : String) (ex : Exec)
    (hmiss : cacheGet st.cache st.now "showvminfo" = none)
    (hrun : runCommand fixer ["showvminfo", "--machinereadable", vmName] st.exec
      = ((out, some e), ex))
    (hsub : ∀ s r, extractor s = some r → ∃ pre post, pre ++ r.toList ++ post = s.toList) :
    getVMInfo fixer vmName st =
      ("", ⟨cacheSet st.cache st.now "showvminfo" "" VBoxManageCacheTimeout, st.now, ex⟩) ∧
    (∀ t (ex2 : Exec), t < st.now + VBoxManageCacheTimeout →
      GetVMInfoByRegexp fixer extractor vmName
          ⟨cacheSet st.cache st.now "showvminfo" "" VBoxManageCacheTimeout, t, ex2⟩ =
        ("", ⟨cacheSet st.cache st.now "showvminfo" "" VBoxManageCacheTimeout, t, ex2⟩)) := by
  constructor
  · simp [getVMInfo, hmiss, hrun]
  · intro t ex2 ht
    have hfind : cacheGet (cacheSet st.cache st.now "showvminfo" "" VBoxManageCacheTimeout)
        t "showvminfo" = some "" := by
      simp [cacheGet, cacheSet, List.find?, ht]
    cases hx : extractor "" with
    | none => simp [GetVMInfoByRegexp, getVMInfo, hfind, hx]
    | some r =>
      obtain ⟨pre, post, hps⟩ := hsub "" r hx
      have h0 : (pre ++ r.toList) ++ post = ([] : List Char) := hps
      have h1 : pre ++ r.toList = [] ∧ post = [] := List.append_eq_nil.mp h0
      have h2 : pre = [] ∧ r.toList = [] := List.append_eq_nil.mp h1.1
      have hre : r = "" := string_of_toList_nil h2.2
      subst hre
      simp [GetVMInfoByRegexp, getVMInfo, hfind, hx]

/-- Witness for C9 on a concrete failing showvminfo invocation and a pattern that
never matches. -/
theorem claim_C9_witness :
    getVMInfo (fun _ => (false, none)) "vm" ⟨[], 0, ⟨[⟨"bla", some "er"⟩], []⟩⟩ =
      ("", ⟨cacheSet [] 0 "showvminfo" "" VBoxManageCacheTimeout, 0,
        ⟨[], [["vboxmanage", "showvminfo", "--machinereadable", "vm"]]⟩⟩) := by
  exact (claim_C9 (fun _ => (false, none)) (fun _ => none) "vm"
    ⟨[], 0, ⟨[⟨"bla", some "er"⟩], []⟩⟩ "bla" "er"
    ⟨[], [["vboxmanage", "showvminfo", "--machinereadable", "vm"]]⟩ rfl rfl
    (fun s r h => Option.noConfusion h)).1

/-- The runner trace grows by the invoked command vector, twice when a failing first
invocation is remediated and retried, so every pass through runCommand invokes the
external process at least once. -/
theorem runCommand_trace_growth (fixer : String → Bool × Option String)
    (args : List String) (w : Exec) :
    ((runCommand fixer args w).2).trace = w.trace ++ [getVBoxManagePath :: args] ∨
    ((runCommand fixer args w).2).trace
      = w.trace ++ [getVBoxManagePath :: args] ++ [getVBoxManagePath :: args] := by
  rcases w with ⟨pending, tr⟩
  rcases pending with _ | ⟨r, rest⟩
  · rcases hfr : fixer "" with ⟨b, fe⟩
    cases b with
    | true =>
      right
      simp [runCommand, runVBoxManage, runAndGetOutput, hfr]
    | false =>
      rcases fe with _ | f
      · left
        simp [runCommand, runVBoxManage, runAndGetOutput, hfr]
      · left
        simp [runCommand, runVBoxManage, runAndGetOutput, hfr]
  · rcases herr : r.err with _ | e
    · left
      simp [runCommand, runVBoxManage, runAndGetOutput, herr]
    · rcases hfr : fixer r.output with ⟨b, fe⟩
      cases b with
      | true =>
        right
        rcases rest with _ | ⟨r2, rest2⟩ <;>
          simp [runCommand, runVBoxManage, runAndGetOutput, herr, hfr]
      | false =>
        rcases fe with _ | f
        · left
          simp [runCommand, runVBoxManage, runAndGetOutput, herr, hfr]
        · left
          simp [runCommand, runVBoxManage, runAndGetOutput, herr, hfr]

/-- C10: on a cache miss, getVMState leaves the cache unchanged on the not-installed
path, on the invocation-failure path and on the extraction-failure path, writing the
vmstate entry only after extracting a non-empty state; so while the VM is uninstalled
the state query behind every IsVMRunning call reaches the hypervisor CLI anew, the
trace growing with every call. -/
theorem claim_C10 (fixer : String → Bool × Option String) (vmName : String) (st : St)
    (raw : String) (errRun : Option String) (ex : Exec)
    (hmiss : cacheGet st.cache st.now "vmstate" = none)
    (hrun : runCommand fixer ["showvminfo", "--machinereadable", vmName] st.exec
      = ((raw, errRun), ex)) :
    (strContains raw vBoxManageOutputNoVMInstalled = true →
      getVMState fixer vmName st = (("", none), ⟨st.cache, st.now, ex⟩)) ∧
    (∀ e, errRun = some e → strContains raw vBoxManageOutputNoVMInstalled = false →
      getVMState fixer vmName st = (("", some e), ⟨st.cache, st.now, ex⟩)) ∧
    (errRun = none → strContains raw vBoxManageOutputNoVMInstalled = false →
      getVMStateFromOutput raw = "" →
      getVMState fixer vmName st =
        (("", some "could not find vm state from the vm info"), ⟨st.cache, st.now, ex⟩)) ∧
    (strContains raw vBoxManageOutputNoVMInstalled = true →
      IsVMRunning fixer vmName st = ((false, none), ⟨st.cache, st.now, ex⟩)) ∧
    st.exec.trace.length < ex.trace.length := by
  refine ⟨?_, ?_, ?_, ?_, ?_⟩
  · intro hdiag
    simp [getVMState, hmiss, hrun, hdiag]
  · intro e he hdiag
    subst he
    simp [getVMState, hmiss, hrun, hdiag]
  · intro he hdiag hext
    subst he
    simp [getVMState, hmiss, hrun, hdiag, hext]
  · intro hdiag
    simp [IsVMRunning, getVMState, hmiss, hrun, hdiag]
  · have h := runCommand_trace_growth fixer ["showvminfo", "--machinereadable", vmName] st.exec
    rw [hrun] at h
    rcases h with h | h
    · rw [h]
      simp
    · rw [h]
      simp

/-- Witness for C10 on a concrete uninstalled-VM invocation. -/
theorem claim_C10_witness :
    getVMState (fun _ => (false, none)) "vm"
        ⟨[], 0, ⟨[⟨"Could not find a registered machine named vm", some "er"⟩], []⟩⟩ =
      (("", none), ⟨[], 0, ⟨[], [["vboxmanage", "showvminfo", "--machinereadable", "vm"]]⟩⟩) := by
  exact (claim_C10 (fun _ => (false, none)) "vm"
    ⟨[], 0, ⟨[⟨"Could not find a registered machine named vm", some "er"⟩], []⟩⟩
    "Could not find a registered machine named vm" (some "er")
    ⟨[], [["vboxmanage", "showvminfo", "--machinereadable", "vm"]]⟩ rfl rfl).1 (by decide)

end Naksu
